import Mathlib

/-!
Verification of the WAV-parsing and HTTP-adapter core of the
`wopr-plugin-voice-qwen3-tts` repository (`src/index.ts`).

A Node `Buffer` is modelled as a `List Nat` of bytes.  The functions
`parseWavSampleRate` and `wavToPcm` are shallow embeddings of the
TypeScript functions of the same names; `Buffer.readUInt32LE` (which
throws `ERR_OUT_OF_RANGE` when fewer than 4 bytes remain) is modelled by
an `Option`-valued read, so `wavToPcm` returns `Option` (`none` models a
thrown exception).  `Buffer.toString("ascii", a, b)` clamps its range to
the buffer and strips the high bit of every byte before decoding; it is
modelled by `asciiSlice`.  `Buffer.subarray` clamps and never throws; it
is modelled by `drop`/`take`.
-/

namespace Qwen3TTS

/-- A Node `Buffer`: a finite sequence of bytes. -/
abbrev ByteBuf := List Nat

/-- Little-endian 32-bit value of the first four entries of a list
(missing entries read as 0, matching no concrete `Buffer`; callers
guard bounds). -/
def byteValLE4 (l : ByteBuf) : Nat :=
  l.getD 0 0 + 256 * l.getD 1 0 + 65536 * l.getD 2 0 + 16777216 * l.getD 3 0

/-- Unchecked little-endian 32-bit read at `off`; the value
`Buffer.readUInt32LE(off)` yields when `off + 4 ≤ length`. -/
def leU32 (buf : ByteBuf) (off : Nat) : Nat :=
  byteValLE4 (buf.drop off)

/-- `Buffer.readUInt32LE(off)`: throws `ERR_OUT_OF_RANGE` (modelled as
`none`) unless `off + 4 ≤ length`. -/
def readUInt32LE (buf : ByteBuf) (off : Nat) : Option Nat :=
  if off + 4 ≤ buf.length then some (leU32 buf off) else none

/-- `Buffer.toString("ascii", start, stop)`: the range is clamped to the
buffer and the high bit of every byte is unset (`byte & 0x7F`) before
decoding. -/
def asciiSlice (buf : ByteBuf) (start stop : Nat) : ByteBuf :=
  ((buf.drop start).take (stop - start)).map (fun b => b % 128)

/-- Byte codes of the marker `RIFF`. -/
def riffId : ByteBuf := [82, 73, 70, 70]

/-- Byte codes of the chunk identifier `fmt ` (with trailing space). -/
def fmtId : ByteBuf := [102, 109, 116, 32]

/-- Byte codes of the chunk identifier `data`. -/
def dataId : ByteBuf := [100, 97, 116, 97]

/-- `parseWavSampleRate` from `src/index.ts`: 24000 for buffers shorter
than 28 bytes or not decoding to `RIFF` at the front, otherwise the
little-endian 32-bit value at byte offset 24 (in bounds as length ≥ 28,
so the unchecked read is exact). -/
def parseWavSampleRate (buffer : ByteBuf) : Nat :=
  if buffer.length < 28 then 24000
  else if asciiSlice buffer 0 4 ≠ riffId then 24000
  else leU32 buffer 24

/-- The chunk-scan loop of `wavToPcm` from `src/index.ts`, with an
explicit fuel argument to make the recursion structural.  Each loop
iteration advances `offset` by at least 8 and only runs while
`offset + 8 < buf.length`, so any fuel with
`buf.length ≤ offset + 8 * fuel` is sufficient and the fuel-0 case is
unreachable from such a state; it returns the same offset-44 fallback as
the loop exit so that insufficient fuel can only ever agree with the
loop (`wavScan_fuel_succ` below proves this stability).  `none` models
the `RangeError` thrown by `readUInt32LE(offset + 12)` on a `fmt ` chunk
header too close to the end of the buffer; the chunk-size read at
`offset + 4` is always in bounds because `offset + 8 < buf.length`. -/
def wavScan (buf : ByteBuf) : Nat → Nat → Nat → Option (ByteBuf × Nat)
  | 0, _, _ => some (buf.drop 44, parseWavSampleRate buf)
  | fuel + 1, offset, sampleRate =>
    if offset + 8 < buf.length then
      let chunkId := asciiSlice buf offset (offset + 4)
      let chunkSize := leU32 buf (offset + 4)
      if chunkId = fmtId then
        match readUInt32LE buf (offset + 12) with
        | none => none
        | some sr => wavScan buf fuel (offset + 8 + chunkSize) sr
      else if chunkId = dataId then
        some ((buf.drop (offset + 8)).take chunkSize, sampleRate)
      else
        wavScan buf fuel (offset + 8 + chunkSize) sampleRate
    else some (buf.drop 44, parseWavSampleRate buf)

/-- `wavToPcm` from `src/index.ts`: scan chunks from offset 12; `fmt `
records a sample rate, `data` returns its payload, anything else is
skipped; fall back to `subarray(44)` and `parseWavSampleRate` when no
`data` chunk is found.  `buf.length` units of fuel are ample since every
iteration consumes more than 8 bytes of the buffer. -/
def wavToPcm (wavBuffer : ByteBuf) : Option (ByteBuf × Nat) :=
  wavScan wavBuffer wavBuffer.length 12 24000

/-- True when the chunk scan starting at `offset` runs to the loop exit:
it neither returns through the `data` branch nor aborts with a thrown
`RangeError`.  Mirrors the recursion of `wavScan`. -/
def wavScanCompletes (buf : ByteBuf) : Nat → Nat → Bool
  | 0, _ => true
  | fuel + 1, offset =>
    if offset + 8 < buf.length then
      let chunkId := asciiSlice buf offset (offset + 4)
      let chunkSize := leU32 buf (offset + 4)
      if chunkId = fmtId then
        match readUInt32LE buf (offset + 12) with
        | none => false
        | some _ => wavScanCompletes buf fuel (offset + 8 + chunkSize)
      else if chunkId = dataId then false
      else wavScanCompletes buf fuel (offset + 8 + chunkSize)
    else true

/-- The full scan of `wavToPcm` completes without finding a `data` chunk
and without throwing. -/
def wavToPcmNoData (wavBuffer : ByteBuf) : Bool :=
  wavScanCompletes wavBuffer wavBuffer.length 12

/-! ## RIFF chunk serialization

To state claims about "well-formed" chunk sequences we serialize an
abstract chunk (a 4-byte identifier plus a payload) the way the RIFF
container lays it out: identifier, little-endian 32-bit payload length,
payload bytes, with no alignment padding (none is assumed by the
code). -/

/-- The four little-endian bytes of `n % 2^32`. -/
def u32le (n : Nat) : ByteBuf :=
  [n % 256, n / 256 % 256, n / 65536 % 256, n / 16777216 % 256]

/-- An abstract RIFF chunk: identifier bytes and payload bytes. -/
structure RiffChunk where
  id : ByteBuf
  payload : ByteBuf

/-- Chunk layout: 4 identifier bytes, 4 size bytes, then the payload. -/
def serializeChunk (c : RiffChunk) : ByteBuf :=
  c.id ++ u32le c.payload.length ++ c.payload

/-- Serialization of a chunk sequence: the chunks back to back. -/
def serializeChunks : List RiffChunk → ByteBuf
  | [] => []
  | c :: cs => serializeChunk c ++ serializeChunks cs

/-- A representable chunk: 4 identifier bytes and a payload whose length
fits the 32-bit size field. -/
def chunkWF (c : RiffChunk) : Prop :=
  c.id.length = 4 ∧ c.payload.length < 4294967296

/-- The identifier of a chunk as the scan decodes it (high bit of each
byte stripped by the `ascii` decoding). -/
def chunkTag (c : RiffChunk) : ByteBuf :=
  c.id.map (fun b => b % 128)

/-- A chunk the scan merely skips: neither `fmt ` nor `data`. -/
def plainChunk (c : RiffChunk) : Prop :=
  chunkWF c ∧ chunkTag c ≠ fmtId ∧ chunkTag c ≠ dataId

/-- Modelled from the claim wording, for comparison with the code: the
same scan as `wavScan` except that a chunk header is read and processed
whenever at least 8 bytes remain (`offset + 8 ≤ length`), i.e. the loop
terminates only when the remaining buffer is smaller than 8 bytes.  The
code's loop condition `offset < length - 8` is strict instead. -/
def wavScanGe8 (buf : ByteBuf) : Nat → Nat → Nat → Option (ByteBuf × Nat)
  | 0, _, _ => some (buf.drop 44, parseWavSampleRate buf)
  | fuel + 1, offset, sampleRate =>
    if offset + 8 ≤ buf.length then
      let chunkId := asciiSlice buf offset (offset + 4)
      let chunkSize := leU32 buf (offset + 4)
      if chunkId = fmtId then
        match readUInt32LE buf (offset + 12) with
        | none => none
        | some sr => wavScanGe8 buf fuel (offset + 8 + chunkSize) sr
      else if chunkId = dataId then
        some ((buf.drop (offset + 8)).take chunkSize, sampleRate)
      else
        wavScanGe8 buf fuel (offset + 8 + chunkSize) sampleRate
    else some (buf.drop 44, parseWavSampleRate buf)

/-- Full extraction under the claim's loop condition. -/
def wavToPcmGe8 (wavBuffer : ByteBuf) : Option (ByteBuf × Nat) :=
  wavScanGe8 wavBuffer wavBuffer.length 12 24000

/-! ## Speech provider adapter (`Qwen3Provider`) -/

/-- Per-call options of `synthesize` (`TTSOptions`); `speed` and
`sampleRate` are accepted by the interface but never read by the code
(speed is modelled as a natural number since only its presence
matters). -/
structure TTSOptions where
  voice : Option String
  speed : Option Nat
  sampleRate : Option Nat

/-- The resolved configuration `Required<Qwen3Config>`. -/
structure Qwen3Config where
  serverUrl : String
  voice : String
  model : String

/-- Keys of the JSON synthesis request body object literal
(`responseFormat` stands for the JSON key `response_format`). -/
inductive JsonKey where
  | input
  | voice
  | model
  | responseFormat
  | speed
deriving DecidableEq

/-- JS string truthiness in `options?.voice || this.config.voice`:
an absent option chain or an empty-string voice falls back to the
configured default. -/
def effectiveVoice (cfg : Qwen3Config) (options : Option TTSOptions) : String :=
  match options with
  | none => cfg.voice
  | some o =>
    match o.voice with
    | none => cfg.voice
    | some v => if v = "" then cfg.voice else v

/-- The fixed `response_format` value sent by `synthesize`. -/
def wavFormat : String := "wav"

/-- The JSON request body built by `synthesize`, in the insertion order
of the object literal: `input`, `voice`, `model`, `response_format`
(fixed to `wavFormat`).  The body has no `speed` member. -/
def buildRequestBody (cfg : Qwen3Config) (text : String) (options : Option TTSOptions) :
    List (JsonKey × String) :=
  [(JsonKey.input, text), (JsonKey.voice, effectiveVoice cfg options),
    (JsonKey.model, cfg.model), (JsonKey.responseFormat, wavFormat)]

/-- `Response.ok` of the Fetch API: HTTP status in the 2xx range. -/
def httpOk (status : Nat) : Bool :=
  decide (200 ≤ status ∧ status < 300)

/-- The result record of `synthesize` (`TTSSynthesisResult`); the
wall-clock `durationMs` field is not modelled. -/
structure TTSSynthesisResult where
  audio : ByteBuf
  format : String
  sampleRate : Nat

/-- Lead-in of the error message thrown on a non-2xx status. -/
def errHead : String := "Qwen3 TTS error: "

/-- Separator between status code and body text in that message. -/
def errSep : String := " - "

/-- Message of the `RangeError` that `readUInt32LE` would raise. -/
def errRange : String := "ERR_OUT_OF_RANGE"

/-- Format tag of every successful synthesis result. -/
def pcmS16le : String := "pcm_s16le"

/-- Response handling of `synthesize` after the POST: a non-ok status
throws an error message carrying the status code and the response body
text; an ok response runs the binary body through `wavToPcm` (whose
`RangeError` would propagate) and tags the result `pcm_s16le`. -/
def synthesizeResponse (status : Nat) (bodyText : String) (bodyBytes : ByteBuf) :
    Except String TTSSynthesisResult :=
  if ¬ httpOk status then
    Except.error (errHead ++ toString status ++ errSep ++ bodyText)
  else
    match wavToPcm bodyBytes with
    | none => Except.error errRange
    | some (pcm, sampleRate) => Except.ok ⟨pcm, pcmS16le, sampleRate⟩

/-- A voice catalogue entry (`Voice`); `gender` is kept as a string. -/
structure Voice where
  id : String
  name : String
  language : String
  gender : String
  description : Option String
deriving DecidableEq

/-- The catalogue replacement of `fetchVoices` on a successful fetch of
`dynamicVoices`: static defaults whose id collides with a fetched id are
dropped, then all fetched entries are appended. -/
def mergeVoices (staticVoices dynamicVoices : List Voice) : List Voice :=
  let dynamicIds := dynamicVoices.map (fun v => v.id)
  staticVoices.filter (fun v => !(dynamicIds.contains v.id)) ++ dynamicVoices

/-! ## Concrete values used by counterexamples and witnesses -/

/-- The resolved `DEFAULT_CONFIG` with no environment overrides. -/
def cfgDefault : Qwen3Config :=
  { serverUrl := "http://qwen3-tts:8880", voice := "af_sarah", model := "qwen-tts" }

/-- A sample text to synthesize. -/
def sampleText : String := "hello world"

/-- A sample error body returned by the server. -/
def sampleErrBody : String := "model not loaded"

/-- Options carrying only a speed override. -/
def optionsSpeedOnly : TTSOptions :=
  { voice := none, speed := some 2, sampleRate := none }

/-- Static default voice `af_sarah`. -/
def voiceSarah : Voice :=
  { id := "af_sarah", name := "Sarah", language := "en", gender := "female",
    description := none }

/-- Static default voice `am_michael`. -/
def voiceMichael : Voice :=
  { id := "am_michael", name := "Michael", language := "en", gender := "male",
    description := none }

/-- A fetched voice sharing `am_michael`'s identifier. -/
def voiceMichaelFetched : Voice :=
  { id := "am_michael", name := "Michael Deluxe", language := "en", gender := "male",
    description := some "fetched" }

/-- A fetched voice with a fresh identifier. -/
def voiceVivian : Voice :=
  { id := "cf_vivian", name := "Vivian", language := "zh", gender := "female",
    description := none }

/-! ## Concrete buffers used by counterexamples and witnesses -/

/-- A `fmt ` chunk payload carrying 44100 at payload offset 4 (where the
code reads the sample rate) and 12345 at payload offset 12 (where the
claim says it is read). -/
def fmtPayloadX : ByteBuf := [0, 0, 0, 0] ++ u32le 44100 ++ [0, 0, 0, 0] ++ u32le 12345

/-- A well-formed RIFF/WAVE buffer: header, the `fmt ` chunk with
payload `fmtPayloadX`, then a `data` chunk with payload `[1,2,3,4]`. -/
def wavPayloadOff : ByteBuf :=
  (riffId ++ u32le 40 ++ [87, 65, 86, 69])
    ++ serializeChunks [⟨fmtId, fmtPayloadX⟩, ⟨dataId, [1, 2, 3, 4]⟩]

/-- The standard 16-byte `fmt ` payload of the repository's own test
vector: PCM, mono, rate 24000, byte rate 48000, block align 2, 16 bits. -/
def fmtPayloadStd : ByteBuf :=
  [1, 0, 1, 0] ++ u32le 24000 ++ u32le 48000 ++ [2, 0, 16, 0]

/-- 21-byte buffer whose `fmt ` chunk header leaves only 9 bytes from
its start: the sample-rate read at offset 24 is out of range. -/
def bufFmtTrunc : ByteBuf := List.replicate 12 0 ++ fmtId ++ [0, 0, 0, 0] ++ [0]

/-- 23-byte buffer with a `data` chunk whose size field (100) exceeds
the 3 bytes that remain after its header. -/
def bufDataOversize : ByteBuf := List.replicate 12 0 ++ dataId ++ u32le 100 ++ [1, 2, 3]

/-- 52-byte buffer: `RIFF` header, a 32-byte junk chunk whose payload
covers byte offset 24 with the value 44100, then a `data` chunk header
whose 8 bytes end exactly at the end of the buffer. -/
def bufBoundary : ByteBuf :=
  riffId ++ u32le 0 ++ [87, 65, 86, 69]
    ++ ([74, 85, 78, 75] ++ u32le 24 ++ ([0, 0, 0, 0] ++ u32le 44100 ++ List.replicate 16 0))
    ++ (dataId ++ u32le 0)

/-- 28-byte buffer whose first byte is 210 (not the `RIFF` byte 82, but
equal to it after the high bit is stripped), carrying 12345 at offset
24. -/
def bufHighBit : ByteBuf := [210, 73, 70, 70] ++ List.replicate 20 0 ++ u32le 12345

/-- The repository test's malformed buffer: 50 bytes, `RIFF` then
zeroes, no valid chunks. -/
def bufRiff50 : ByteBuf := riffId ++ List.replicate 46 0

theorem length_serializeChunk (c : RiffChunk) (h : chunkWF c) :
    (serializeChunk c).length = 8 + c.payload.length := by
  simp [serializeChunk, u32le, h.1]
  omega

theorem serializeChunks_append (xs ys : List RiffChunk) :
    serializeChunks (xs ++ ys) = serializeChunks xs ++ serializeChunks ys := by
  induction xs with
  | nil => simp [serializeChunks]
  | cons c cs ih => simp [serializeChunks, ih]

theorem length_serializeChunks_ge (cs : List RiffChunk)
    (h : ∀ c ∈ cs, chunkWF c) : 8 * cs.length ≤ (serializeChunks cs).length := by
  induction cs with
  | nil => simp [serializeChunks]
  | cons c cs ih =>
    have hc := length_serializeChunk c (h c (by simp))
    have hcs := ih (fun x hx => h x (by simp [hx]))
    simp only [serializeChunks, List.length_append, List.length_cons]
    omega

theorem serializeChunk_ne_nil (c : RiffChunk) (h : chunkWF c) :
    serializeChunk c ≠ [] := by
  intro hnil
  have := length_serializeChunk c h
  rw [hnil] at this
  simp at this
  omega

/-! ## Reading back from a serialized buffer -/

theorem byteValLE4_append (l B : ByteBuf) (h : 4 ≤ l.length) :
    byteValLE4 (l ++ B) = byteValLE4 l := by
  unfold byteValLE4
  rw [List.getD_append _ _ _ _ (by omega), List.getD_append _ _ _ _ (by omega),
    List.getD_append _ _ _ _ (by omega), List.getD_append _ _ _ _ (by omega)]

theorem byteValLE4_u32le_append (n : Nat) (B : ByteBuf) (h : n < 4294967296) :
    byteValLE4 (u32le n ++ B) = n := by
  simp only [u32le, List.cons_append, List.nil_append, byteValLE4,
    List.getD_cons_zero, List.getD_cons_succ]
  omega

theorem leU32_append (A l : ByteBuf) : leU32 (A ++ l) A.length = byteValLE4 l := by
  unfold leU32
  rw [List.drop_left]

theorem asciiSlice_at (A l B : ByteBuf) (h : l.length = 4) :
    asciiSlice (A ++ (l ++ B)) A.length (A.length + 4) = l.map (fun b => b % 128) := by
  unfold asciiSlice
  rw [List.drop_left, Nat.add_sub_cancel_left, ← h, List.take_left]

theorem scanHeaderId (A : ByteBuf) (c : RiffChunk) (B : ByteBuf) (h : chunkWF c) :
    asciiSlice (A ++ serializeChunk c ++ B) A.length (A.length + 4) = chunkTag c := by
  have h1 : A ++ serializeChunk c ++ B
      = A ++ (c.id ++ (u32le c.payload.length ++ c.payload ++ B)) := by
    simp [serializeChunk, List.append_assoc]
  rw [h1, asciiSlice_at _ _ _ h.1, chunkTag]

theorem scanHeaderSize (A : ByteBuf) (c : RiffChunk) (B : ByteBuf) (h : chunkWF c) :
    leU32 (A ++ serializeChunk c ++ B) (A.length + 4) = c.payload.length := by
  have h1 : A ++ serializeChunk c ++ B
      = (A ++ c.id) ++ (u32le c.payload.length ++ (c.payload ++ B)) := by
    simp [serializeChunk, List.append_assoc]
  have h2 : A.length + 4 = (A ++ c.id).length := by simp [h.1]
  rw [h1, h2, leU32_append, byteValLE4_u32le_append _ _ h.2]

theorem scanBufLength (A : ByteBuf) (c : RiffChunk) (B : ByteBuf) (h : chunkWF c) :
    (A ++ serializeChunk c ++ B).length = A.length + 8 + c.payload.length + B.length := by
  simp [length_serializeChunk c h]
  omega

theorem scanFmtRead (A : ByteBuf) (c : RiffChunk) (B : ByteBuf) (h : chunkWF c)
    (hp : 8 ≤ c.payload.length) :
    readUInt32LE (A ++ serializeChunk c ++ B) (A.length + 12) = some (leU32 c.payload 4) := by
  have hlen := scanBufLength A c B h
  unfold readUInt32LE
  rw [if_pos (by omega)]
  have h1 : A ++ serializeChunk c ++ B
      = (A ++ c.id ++ u32le c.payload.length) ++ (c.payload ++ B) := by
    simp [serializeChunk, List.append_assoc]
  have h2 : A.length + 12 = (A ++ c.id ++ u32le c.payload.length).length + 4 := by
    simp [h.1, u32le]
  rw [h1, h2]
  unfold leU32
  rw [List.drop_append 4, List.drop_append_eq_append_drop]
  have h3 : 4 - c.payload.length = 0 := by omega
  rw [h3, List.drop_zero,
    byteValLE4_append _ _ (by rw [List.length_drop]; omega)]

/-! ## One-step and traversal lemmas for the chunk scan -/

theorem wavScan_exit (buf : ByteBuf) (fuel o sr : Nat) (h : buf.length ≤ o + 8) :
    wavScan buf fuel o sr = some (buf.drop 44, parseWavSampleRate buf) := by
  cases fuel with
  | zero => rfl
  | succ fuel =>
    simp only [wavScan]
    rw [if_neg (by omega)]

theorem wavScan_step_data (buf : ByteBuf) (fuel o sr : Nat)
    (hcond : o + 8 < buf.length) (hid : asciiSlice buf o (o + 4) = dataId) :
    wavScan buf (fuel + 1) o sr
      = some ((buf.drop (o + 8)).take (leU32 buf (o + 4)), sr) := by
  simp only [wavScan]
  rw [if_pos hcond, hid, if_neg (by decide), if_pos rfl]

theorem wavScan_step_skip (A B : ByteBuf) (c : RiffChunk) (fuel sr : Nat)
    (hc : plainChunk c) (hB : B ≠ []) :
    wavScan (A ++ serializeChunk c ++ B) (fuel + 1) A.length sr
      = wavScan (A ++ serializeChunk c ++ B) fuel (A.length + 8 + c.payload.length) sr := by
  have hlen := scanBufLength A c B hc.1
  have hid := scanHeaderId A c B hc.1
  have hsz := scanHeaderSize A c B hc.1
  have hBlen : 0 < B.length := List.length_pos.mpr hB
  simp only [wavScan]
  rw [if_pos (by omega), hid, hsz, if_neg hc.2.1, if_neg hc.2.2]

theorem wavScan_step_fmt (A B : ByteBuf) (c : RiffChunk) (fuel sr : Nat)
    (hwf : chunkWF c) (hfmt : chunkTag c = fmtId) (hp : 8 ≤ c.payload.length) :
    wavScan (A ++ serializeChunk c ++ B) (fuel + 1) A.length sr
      = wavScan (A ++ serializeChunk c ++ B) fuel (A.length + 8 + c.payload.length)
          (leU32 c.payload 4) := by
  have hlen := scanBufLength A c B hwf
  have hid := scanHeaderId A c B hwf
  have hsz := scanHeaderSize A c B hwf
  have hread := scanFmtRead A c B hwf hp
  simp only [wavScan]
  rw [if_pos (by omega), hid, hsz, if_pos hfmt, hread]

theorem append_ne_nil_left (l m : ByteBuf) (h : l ≠ []) : l ++ m ≠ [] := by
  intro hc
  exact h (List.nil_eq_append_iff.mp hc.symm).1

theorem append_ne_nil_right (l m : ByteBuf) (h : m ≠ []) : l ++ m ≠ [] := by
  intro hc
  exact h (List.nil_eq_append_iff.mp hc.symm).2

theorem wavScan_step_skip' (buf A B : ByteBuf) (c : RiffChunk) (fuel fuel' o o' sr : Nat)
    (hbuf : buf = A ++ serializeChunk c ++ B) (ho : o = A.length)
    (hfuel : fuel' = fuel + 1) (ho' : o' = o + 8 + c.payload.length)
    (hc : plainChunk c) (hB : B ≠ []) :
    wavScan buf fuel' o sr = wavScan buf fuel o' sr := by
  subst hbuf ho hfuel ho'
  exact wavScan_step_skip A B c fuel sr hc hB

theorem wavScan_step_fmt' (buf A B : ByteBuf) (c : RiffChunk) (fuel fuel' o o' sr : Nat)
    (hbuf : buf = A ++ serializeChunk c ++ B) (ho : o = A.length)
    (hfuel : fuel' = fuel + 1) (ho' : o' = o + 8 + c.payload.length)
    (hwf : chunkWF c) (hfmt : chunkTag c = fmtId) (hp : 8 ≤ c.payload.length) :
    wavScan buf fuel' o sr = wavScan buf fuel o' (leU32 c.payload 4) := by
  subst hbuf ho hfuel ho'
  exact wavScan_step_fmt A B c fuel sr hwf hfmt hp

theorem wavScan_traverse (cs : List RiffChunk) :
    ∀ (buf A B : ByteBuf) (fuel fuel' o o' sr : Nat),
      buf = A ++ serializeChunks cs ++ B → o = A.length →
      fuel' = fuel + cs.length → o' = o + (serializeChunks cs).length →
      B ≠ [] → (∀ c ∈ cs, plainChunk c) →
      wavScan buf fuel' o sr = wavScan buf fuel o' sr := by
  induction cs with
  | nil =>
    intro buf A B fuel fuel' o o' sr hbuf ho hfuel ho' hB hcs
    subst hfuel ho'
    simp [serializeChunks]
  | cons c cs ih =>
    intro buf A B fuel fuel' o o' sr hbuf ho hfuel ho' hB hcs
    have hc : plainChunk c := hcs c (by simp)
    have hcs' : ∀ x ∈ cs, plainChunk x := fun x hx => hcs x (by simp [hx])
    have hserlen : (serializeChunks (c :: cs)).length
        = 8 + c.payload.length + (serializeChunks cs).length := by
      simp [serializeChunks, length_serializeChunk c hc.1]
    have step : wavScan buf fuel' o sr
        = wavScan buf (fuel + cs.length) (o + 8 + c.payload.length) sr :=
      wavScan_step_skip' buf A (serializeChunks cs ++ B) c (fuel + cs.length) fuel' o _ sr
        (by rw [hbuf]; simp [serializeChunks, List.append_assoc]) ho
        (by rw [hfuel, List.length_cons]; omega) rfl hc
        (append_ne_nil_right _ _ hB)
    rw [step]
    exact ih buf (A ++ serializeChunk c) B fuel (fuel + cs.length)
      (o + 8 + c.payload.length) o' sr
      (by rw [hbuf]; simp [serializeChunks, List.append_assoc])
      (by rw [List.length_append, length_serializeChunk c hc.1, ho]; omega)
      rfl
      (by rw [ho', hserlen]; omega)
      hB hcs'

/-- After skipping any run of plain chunks, a `data` chunk whose 8-byte
header does not end exactly at the end of the buffer makes the scan
return that chunk's payload together with the incoming sample rate. -/
theorem wavScan_reach_data (dataC : RiffChunk) (rest : List RiffChunk)
    (hdw : chunkWF dataC) (hdt : chunkTag dataC = dataId)
    (hne : 0 < dataC.payload.length + (serializeChunks rest).length)
    (cs : List RiffChunk) (buf A : ByteBuf) (fuel o sr : Nat)
    (hbuf : buf = A ++ serializeChunks (cs ++ dataC :: rest)) (ho : o = A.length)
    (hfuel : cs.length < fuel) (hcs : ∀ c ∈ cs, plainChunk c) :
    wavScan buf fuel o sr = some (dataC.payload, sr) := by
  have hA2buf : buf = (A ++ serializeChunks cs) ++ serializeChunk dataC
      ++ serializeChunks rest := by
    rw [hbuf, serializeChunks_append]
    simp [serializeChunks, List.append_assoc]
  have step1 : wavScan buf fuel o sr
      = wavScan buf (fuel - cs.length) (o + (serializeChunks cs).length) sr :=
    wavScan_traverse cs buf A (serializeChunk dataC ++ serializeChunks rest)
      (fuel - cs.length) fuel o _ sr
      (by rw [hbuf, serializeChunks_append]; simp [serializeChunks, List.append_assoc])
      ho (by omega) rfl
      (append_ne_nil_left _ _ (serializeChunk_ne_nil dataC hdw)) hcs
  rw [step1]
  have ho2 : o + (serializeChunks cs).length = (A ++ serializeChunks cs).length := by
    rw [List.length_append, ho]
  have hlen := scanBufLength (A ++ serializeChunks cs) dataC (serializeChunks rest) hdw
  rw [← hA2buf] at hlen
  have hfuel2 : fuel - cs.length = (fuel - cs.length - 1) + 1 := by omega
  have hid : asciiSlice buf (o + (serializeChunks cs).length)
      ((o + (serializeChunks cs).length) + 4) = dataId := by
    rw [ho2]
    have := scanHeaderId (A ++ serializeChunks cs) dataC (serializeChunks rest) hdw
    rw [← hA2buf] at this
    rw [this, hdt]
  have hsz : leU32 buf ((o + (serializeChunks cs).length) + 4) = dataC.payload.length := by
    rw [ho2]
    have := scanHeaderSize (A ++ serializeChunks cs) dataC (serializeChunks rest) hdw
    rw [← hA2buf] at this
    exact this
  have hdrop : buf.drop ((o + (serializeChunks cs).length) + 8)
      = dataC.payload ++ serializeChunks rest := by
    have hgrp : buf = (A ++ serializeChunks cs ++ dataC.id
        ++ u32le dataC.payload.length) ++ (dataC.payload ++ serializeChunks rest) := by
      rw [hA2buf, serializeChunk]
      simp [List.append_assoc]
    have hgl : (A ++ serializeChunks cs ++ dataC.id ++ u32le dataC.payload.length).length
        = (o + (serializeChunks cs).length) + 8 := by
      simp [ho, hdw.1, u32le]
      omega
    rw [hgrp, ← hgl, List.drop_left]
  rw [hfuel2, wavScan_step_data buf _ _ sr (by omega) hid, hsz, hdrop, List.take_left]

/-- Helper for claim C1, first half: a buffer laid out as a 12-byte
header, plain chunks, one `fmt ` chunk, more plain chunks, then a `data`
chunk (not ending flush with the buffer) and trailing chunks.  The scan
returns the `data` payload and the sample rate read at payload offset 4
of the `fmt ` chunk (absolute offset 12 of the chunk). -/
theorem wavToPcm_fmt_data (H : ByteBuf) (pre mid rest : List RiffChunk)
    (fmtC dataC : RiffChunk) (hH : H.length = 12)
    (hpre : ∀ c ∈ pre, plainChunk c) (hmid : ∀ c ∈ mid, plainChunk c)
    (hfw : chunkWF fmtC) (hft : chunkTag fmtC = fmtId) (hfp : 8 ≤ fmtC.payload.length)
    (hdw : chunkWF dataC) (hdt : chunkTag dataC = dataId)
    (hne : 0 < dataC.payload.length + (serializeChunks rest).length) :
    wavToPcm (H ++ serializeChunks (pre ++ fmtC :: mid ++ dataC :: rest))
      = some (dataC.payload, leU32 fmtC.payload 4) := by
  set buf := H ++ serializeChunks (pre ++ fmtC :: mid ++ dataC :: rest) with hbufdef
  have hsp := length_serializeChunks_ge pre (fun c hc => (hpre c hc).1)
  have hsm := length_serializeChunks_ge mid (fun c hc => (hmid c hc).1)
  have hlen : buf.length = 12 + (serializeChunks pre).length
      + (8 + fmtC.payload.length) + (serializeChunks mid).length
      + (8 + dataC.payload.length) + (serializeChunks rest).length := by
    rw [hbufdef, serializeChunks_append]
    simp [serializeChunks, serializeChunks_append, length_serializeChunk fmtC hfw,
      length_serializeChunk dataC hdw, hH]
    omega
  have step1 : wavScan buf buf.length 12 24000
      = wavScan buf (buf.length - pre.length) (12 + (serializeChunks pre).length) 24000 :=
    wavScan_traverse pre buf H
      (serializeChunk fmtC ++ serializeChunks (mid ++ dataC :: rest))
      (buf.length - pre.length) buf.length 12 _ 24000
      (by rw [hbufdef]; simp [serializeChunks, serializeChunks_append, List.append_assoc])
      hH.symm (by omega) rfl
      (append_ne_nil_left _ _ (serializeChunk_ne_nil fmtC hfw)) hpre
  have step2 : wavScan buf (buf.length - pre.length) (12 + (serializeChunks pre).length) 24000
      = wavScan buf (buf.length - pre.length - 1)
          (12 + (serializeChunks pre).length + 8 + fmtC.payload.length)
          (leU32 fmtC.payload 4) :=
    wavScan_step_fmt' buf (H ++ serializeChunks pre) (serializeChunks (mid ++ dataC :: rest))
      fmtC (buf.length - pre.length - 1) (buf.length - pre.length)
      (12 + (serializeChunks pre).length) _ 24000
      (by rw [hbufdef]; simp [serializeChunks, serializeChunks_append, List.append_assoc])
      (by simp [hH]) (by omega) rfl hfw hft hfp
  have step3 : wavScan buf (buf.length - pre.length - 1)
      (12 + (serializeChunks pre).length + 8 + fmtC.payload.length)
      (leU32 fmtC.payload 4) = some (dataC.payload, leU32 fmtC.payload 4) :=
    wavScan_reach_data dataC rest hdw hdt hne mid buf
      (H ++ serializeChunks pre ++ serializeChunk fmtC)
      (buf.length - pre.length - 1) _ _
      (by rw [hbufdef]; simp [serializeChunks, serializeChunks_append, List.append_assoc])
      (by simp [hH, length_serializeChunk fmtC hfw]; omega)
      (by omega) hmid
  rw [wavToPcm, step1, step2, step3]

/-- Helper for claim C1, second half: when a `data` chunk (not ending
flush with the buffer) comes before any `fmt ` chunk, the returned
sample rate is the default 24000. -/
theorem wavToPcm_data_first (H : ByteBuf) (pre rest : List RiffChunk)
    (dataC : RiffChunk) (hH : H.length = 12)
    (hpre : ∀ c ∈ pre, plainChunk c)
    (hdw : chunkWF dataC) (hdt : chunkTag dataC = dataId)
    (hne : 0 < dataC.payload.length + (serializeChunks rest).length) :
    wavToPcm (H ++ serializeChunks (pre ++ dataC :: rest))
      = some (dataC.payload, 24000) := by
  set buf := H ++ serializeChunks (pre ++ dataC :: rest) with hbufdef
  have hsp := length_serializeChunks_ge pre (fun c hc => (hpre c hc).1)
  have hlen : buf.length = 12 + (serializeChunks pre).length
      + (8 + dataC.payload.length) + (serializeChunks rest).length := by
    rw [hbufdef, serializeChunks_append]
    simp [serializeChunks, length_serializeChunk dataC hdw, hH]
    omega
  rw [wavToPcm]
  exact wavScan_reach_data dataC rest hdw hdt hne pre buf H buf.length 12 24000
    hbufdef hH.symm (by omega) hpre

/-! ## Fuel adequacy and scan-outcome characterizations -/

/-- One-step unfolding of the scan at positive fuel. -/
theorem wavScan_succ (buf : ByteBuf) (fuel o sr : Nat) :
    wavScan buf (fuel + 1) o sr
      = if o + 8 < buf.length then
          if asciiSlice buf o (o + 4) = fmtId then
            match readUInt32LE buf (o + 12) with
            | none => none
            | some sr' => wavScan buf fuel (o + 8 + leU32 buf (o + 4)) sr'
          else if asciiSlice buf o (o + 4) = dataId then
            some ((buf.drop (o + 8)).take (leU32 buf (o + 4)), sr)
          else wavScan buf fuel (o + 8 + leU32 buf (o + 4)) sr
        else some (buf.drop 44, parseWavSampleRate buf) := rfl

/-- One-step unfolding of the completion predicate at positive fuel. -/
theorem wavScanCompletes_succ (buf : ByteBuf) (fuel o : Nat) :
    wavScanCompletes buf (fuel + 1) o
      = if o + 8 < buf.length then
          if asciiSlice buf o (o + 4) = fmtId then
            match readUInt32LE buf (o + 12) with
            | none => false
            | some _ => wavScanCompletes buf fuel (o + 8 + leU32 buf (o + 4))
          else if asciiSlice buf o (o + 4) = dataId then false
          else wavScanCompletes buf fuel (o + 8 + leU32 buf (o + 4))
        else true := rfl

/-- Any fuel covering the remaining bytes at 8 per step is sufficient:
adding more fuel does not change the scan.  In particular the
`buf.length` fuel used by `wavToPcm` computes the loop's true result. -/
theorem wavScan_fuel_succ (buf : ByteBuf) :
    ∀ (fuel o sr : Nat), buf.length ≤ o + 8 * fuel →
      wavScan buf (fuel + 1) o sr = wavScan buf fuel o sr := by
  intro fuel
  induction fuel with
  | zero =>
    intro o sr h
    rw [wavScan_exit buf 1 o sr (by omega)]
    rfl
  | succ fuel ih =>
    intro o sr h
    by_cases hc : o + 8 < buf.length
    · rw [wavScan_succ buf (fuel + 1) o sr, wavScan_succ buf fuel o sr, if_pos hc, if_pos hc]
      by_cases h1 : asciiSlice buf o (o + 4) = fmtId
      · rw [if_pos h1, if_pos h1]
        cases hr : readUInt32LE buf (o + 12) with
        | none => rfl
        | some sr' => exact ih (o + 8 + leU32 buf (o + 4)) sr' (by omega)
      · rw [if_neg h1, if_neg h1]
        by_cases h2 : asciiSlice buf o (o + 4) = dataId
        · rw [if_pos h2, if_pos h2]
        · rw [if_neg h2, if_neg h2]
          exact ih (o + 8 + leU32 buf (o + 4)) sr (by omega)
    · rw [wavScan_exit buf (fuel + 1 + 1) o sr (by omega),
        wavScan_exit buf (fuel + 1) o sr (by omega)]

/-- The scan throws (returns `none`) only because of the 4-byte
sample-rate read of a `fmt `-tagged chunk header: some scanned offset
`j` decodes to `fmt `, is processed (`j + 8 < length`) but leaves fewer
than 16 bytes past `j`, so `readUInt32LE(j + 12)` is out of range. -/
theorem wavScan_none (buf : ByteBuf) :
    ∀ (fuel o sr : Nat), wavScan buf fuel o sr = none →
      ∃ j, asciiSlice buf j (j + 4) = fmtId ∧ j + 8 < buf.length
        ∧ buf.length < j + 16 := by
  intro fuel
  induction fuel with
  | zero =>
    intro o sr h
    simp [wavScan] at h
  | succ fuel ih =>
    intro o sr h
    rw [wavScan_succ] at h
    by_cases hc : o + 8 < buf.length
    · rw [if_pos hc] at h
      by_cases h1 : asciiSlice buf o (o + 4) = fmtId
      · rw [if_pos h1] at h
        cases hr : readUInt32LE buf (o + 12) with
        | none =>
          refine ⟨o, h1, hc, ?_⟩
          unfold readUInt32LE at hr
          by_cases hb : o + 12 + 4 ≤ buf.length
          · rw [if_pos hb] at hr
            exact absurd hr (by simp)
          · omega
        | some sr' =>
          rw [hr] at h
          exact ih _ _ h
      · rw [if_neg h1] at h
        by_cases h2 : asciiSlice buf o (o + 4) = dataId
        · rw [if_pos h2] at h
          exact absurd h (by simp)
        · rw [if_neg h2] at h
          exact ih _ _ h
    · rw [if_neg hc] at h
      exact absurd h (by simp)

/-- When the scan completes (reaches the loop exit without a `data`
return and without throwing), its value is the offset-44 fallback. -/
theorem wavScanCompletes_scan (buf : ByteBuf) :
    ∀ (fuel o sr : Nat), wavScanCompletes buf fuel o = true →
      wavScan buf fuel o sr = some (buf.drop 44, parseWavSampleRate buf) := by
  intro fuel
  induction fuel with
  | zero => intro o sr _; rfl
  | succ fuel ih =>
    intro o sr h
    rw [wavScanCompletes_succ] at h
    rw [wavScan_succ]
    by_cases hc : o + 8 < buf.length
    · rw [if_pos hc] at h
      rw [if_pos hc]
      by_cases h1 : asciiSlice buf o (o + 4) = fmtId
      · rw [if_pos h1] at h
        rw [if_pos h1]
        cases hr : readUInt32LE buf (o + 12) with
        | none =>
          rw [hr] at h
          exact absurd h (by simp)
        | some sr' =>
          rw [hr] at h
          exact ih _ sr' h
      · rw [if_neg h1] at h
        rw [if_neg h1]
        by_cases h2 : asciiSlice buf o (o + 4) = dataId
        · rw [if_pos h2] at h
          exact absurd h (by simp)
        · rw [if_neg h2] at h
          rw [if_neg h2]
          exact ih _ sr h
    · rw [if_neg hc]

theorem getD_drop (l : ByteBuf) (n i d : Nat) : (l.drop n).getD i d = l.getD (n + i) d := by
  rw [List.getD_eq_getElem?_getD, List.getD_eq_getElem?_getD, List.getElem?_drop]

/-! ## Claim theorems -/

/-- C1 (amended): for every well-formed RIFF/WAVE buffer whose chunk
sequence from offset 12 consists of skippable chunks, a `fmt ` chunk
(payload at least 8 bytes), more skippable chunks, then a `data` chunk
whose 8-byte header ends strictly before the end of the buffer,
`wavToPcm` returns exactly the `data` payload and the sample rate read
at payload offset 4 of the `fmt ` chunk (absolute offset 12 from the
chunk start) — not payload offset 12; and when a `data` chunk is
reached before any `fmt ` chunk the returned sample rate is the default
24000. -/
theorem qwen3_c1_extraction :
    (∀ (H : ByteBuf) (pre mid rest : List RiffChunk) (fmtC dataC : RiffChunk),
      H.length = 12 → (∀ c ∈ pre, plainChunk c) → (∀ c ∈ mid, plainChunk c) →
      chunkWF fmtC → chunkTag fmtC = fmtId → 8 ≤ fmtC.payload.length →
      chunkWF dataC → chunkTag dataC = dataId →
      0 < dataC.payload.length + (serializeChunks rest).length →
      wavToPcm (H ++ serializeChunks (pre ++ fmtC :: mid ++ dataC :: rest))
        = some (dataC.payload, leU32 fmtC.payload 4))
    ∧ (∀ (H : ByteBuf) (pre rest : List RiffChunk) (dataC : RiffChunk),
      H.length = 12 → (∀ c ∈ pre, plainChunk c) →
      chunkWF dataC → chunkTag dataC = dataId →
      0 < dataC.payload.length + (serializeChunks rest).length →
      wavToPcm (H ++ serializeChunks (pre ++ dataC :: rest))
        = some (dataC.payload, 24000)) :=
  ⟨fun H pre mid rest fmtC dataC hH hpre hmid hfw hft hfp hdw hdt hne =>
    wavToPcm_fmt_data H pre mid rest fmtC dataC hH hpre hmid hfw hft hfp hdw hdt hne,
    fun H pre rest dataC hH hpre hdw hdt hne =>
    wavToPcm_data_first H pre rest dataC hH hpre hdw hdt hne⟩

/-- C1 counterexample: a well-formed buffer whose `fmt ` payload holds
12345 at payload offset 12 (where the claim locates the sample rate) and
44100 at payload offset 4; the code returns 44100, not 12345. -/
theorem qwen3_c1_counterexample :
    leU32 fmtPayloadX 12 = 12345 ∧ leU32 fmtPayloadX 4 = 44100
    ∧ wavToPcm wavPayloadOff = some ([1, 2, 3, 4], 44100)
    ∧ wavToPcm wavPayloadOff ≠ some ([1, 2, 3, 4], 12345) := by decide

/-- C1 witness: the repository's own test vector (standard `fmt ` chunk
with rate 24000, `data` chunk `[1..8]`) through the amended theorem. -/
theorem qwen3_c1_witness :
    wavToPcm ((riffId ++ u32le 44 ++ [87, 65, 86, 69])
        ++ serializeChunks [⟨fmtId, fmtPayloadStd⟩, ⟨dataId, [1, 2, 3, 4, 5, 6, 7, 8]⟩])
      = some ([1, 2, 3, 4, 5, 6, 7, 8], 24000) := by
  have h := qwen3_c1_extraction.1 (riffId ++ u32le 44 ++ [87, 65, 86, 69]) [] [] []
    ⟨fmtId, fmtPayloadStd⟩ ⟨dataId, [1, 2, 3, 4, 5, 6, 7, 8]⟩ (by decide)
    (by simp) (by simp) (by exact ⟨by decide, by decide⟩) (by decide) (by decide)
    (by exact ⟨by decide, by decide⟩) (by decide) (by decide)
  exact h

/-- C2 counterexample: `wavToPcm` is not total — on a 21-byte buffer
with a `fmt ` header too near the end, `readUInt32LE(offset + 12)`
throws, modelled as `none`. -/
theorem qwen3_c2_counterexample :
    bufFmtTrunc.length = 21 ∧ wavToPcm bufFmtTrunc = none := by decide

/-- C2 (amended): `wavToPcm` signals an error only through the 4-byte
sample-rate read of a `fmt `-tagged chunk header: whenever it throws,
some scanned offset `j` decodes to `fmt `, satisfies the loop condition
`j + 8 < length`, but leaves fewer than 16 bytes, putting the read at
`j + 12` out of range; every other input, however malformed, yields a
result (degrading to the offset-44 fallback). -/
theorem qwen3_c2_throw_characterization (buf : ByteBuf) (h : wavToPcm buf = none) :
    ∃ j, asciiSlice buf j (j + 4) = fmtId ∧ j + 8 < buf.length ∧ buf.length < j + 16 :=
  wavScan_none buf buf.length 12 24000 h

/-- C2 witness: the amended theorem applied to the throwing buffer. -/
theorem qwen3_c2_witness :
    ∃ j, asciiSlice bufFmtTrunc j (j + 4) = fmtId ∧ j + 8 < bufFmtTrunc.length
      ∧ bufFmtTrunc.length < j + 16 :=
  qwen3_c2_throw_characterization bufFmtTrunc (by decide)

/-- C3 counterexample: a `data` chunk at offset 12 with size field 100
but only 3 bytes after the header yields a 3-byte payload (`subarray`
clamps), not a 100-byte one. -/
theorem qwen3_c3_counterexample :
    asciiSlice bufDataOversize 12 16 = dataId ∧ leU32 bufDataOversize 16 = 100
    ∧ wavToPcm bufDataOversize = some ([1, 2, 3], 24000)
    ∧ ([1, 2, 3] : ByteBuf).length ≠ 100 := by decide

/-- C3 (amended): when the scan encounters a `data` chunk at offset `o`
with size field `s`, the payload is the byte range from `o + 8` clamped
to the end of the buffer, so its length is `min s (length - (o + 8))` —
equal to `s` only when `s` bytes actually remain. -/
theorem qwen3_c3_data_clamped (buf : ByteBuf) (fuel o sr : Nat) (hfuel : 0 < fuel)
    (hcond : o + 8 < buf.length) (hid : asciiSlice buf o (o + 4) = dataId) :
    wavScan buf fuel o sr = some ((buf.drop (o + 8)).take (leU32 buf (o + 4)), sr)
    ∧ ((buf.drop (o + 8)).take (leU32 buf (o + 4))).length
        = min (leU32 buf (o + 4)) (buf.length - (o + 8)) := by
  obtain ⟨f, rfl⟩ : ∃ f, fuel = f + 1 := ⟨fuel - 1, by omega⟩
  exact ⟨wavScan_step_data buf f o sr hcond hid,
    by rw [List.length_take, List.length_drop]⟩

/-- C3 witness: the amended theorem on the oversized-size buffer. -/
theorem qwen3_c3_witness :
    wavScan bufDataOversize 23 12 24000
      = some ((bufDataOversize.drop 20).take (leU32 bufDataOversize 16), 24000)
    ∧ ((bufDataOversize.drop 20).take (leU32 bufDataOversize 16)).length
        = min (leU32 bufDataOversize 16) (bufDataOversize.length - 20) :=
  qwen3_c3_data_clamped bufDataOversize 23 12 24000 (by decide) (by decide) (by decide)

/-- C4 counterexample: in `bufBoundary` a `data` chunk header occupies
the last 8 bytes (offset 44 of 52).  The claim's loop (processing a
header whenever 8 bytes remain, `wavToPcmGe8`) returns that chunk; the
code's strict condition skips it and falls back, giving a different
result. -/
theorem qwen3_c4_counterexample :
    bufBoundary.length = 52 ∧ asciiSlice bufBoundary 44 48 = dataId
    ∧ wavToPcmGe8 bufBoundary = some ([], 24000)
    ∧ wavToPcm bufBoundary = some ([100, 97, 116, 97, 0, 0, 0, 0], 44100)
    ∧ wavToPcm bufBoundary ≠ wavToPcmGe8 bufBoundary := by decide

/-- C4 (amended): the loop terminates exactly when at most 8 bytes
remain (`length ≤ offset + 8`), returning the offset-44 fallback — so a
chunk header whose 8 bytes end exactly at the end of the buffer is NOT
processed; a header is read and processed only when more than 8 bytes
remain, as the `data` case exhibits. -/
theorem qwen3_c4_strict_boundary (buf : ByteBuf) (fuel o sr : Nat) :
    (buf.length ≤ o + 8 → wavScan buf fuel o sr = some (buf.drop 44, parseWavSampleRate buf))
    ∧ (o + 8 < buf.length → 0 < fuel → asciiSlice buf o (o + 4) = dataId →
        wavScan buf fuel o sr = some ((buf.drop (o + 8)).take (leU32 buf (o + 4)), sr)) := by
  refine ⟨fun h => wavScan_exit buf fuel o sr h, fun hc hf hid => ?_⟩
  obtain ⟨f, rfl⟩ : ∃ f, fuel = f + 1 := ⟨fuel - 1, by omega⟩
  exact wavScan_step_data buf f o sr hc hid

/-- C4 witness: the fallback at the flush-ending header of
`bufBoundary`, and a processed `data` header with 9 or more remaining
bytes. -/
theorem qwen3_c4_witness :
    wavScan bufBoundary 8 44 24000
      = some (bufBoundary.drop 44, parseWavSampleRate bufBoundary)
    ∧ wavScan bufDataOversize 5 12 7777
      = some ((bufDataOversize.drop 20).take (leU32 bufDataOversize 16), 7777) :=
  ⟨(qwen3_c4_strict_boundary bufBoundary 8 44 24000).1 (by decide),
    (qwen3_c4_strict_boundary bufDataOversize 5 12 7777).2 (by decide) (by decide)
      (by decide)⟩

/-- C5 counterexample: `bufHighBit` is 28 bytes long and its first four
bytes are not `RIFF` (the first byte is 210), yet the `ascii` decoding
strips the high bit (210 mod 128 = 82), so the code reads offset 24 and
returns 12345 instead of the claimed 24000. -/
theorem qwen3_c5_counterexample :
    bufHighBit.length = 28 ∧ bufHighBit.take 4 ≠ riffId
    ∧ parseWavSampleRate bufHighBit = 12345 ∧ (12345 : Nat) ≠ 24000 := by decide

/-- C5 (amended): `parseWavSampleRate` returns 24000 when the buffer is
shorter than 28 bytes or its first 4 bytes do not decode to `RIFF`
after the high bit of each byte is stripped (Node `ascii` decoding);
for length at least 28 with such a decoded `RIFF` marker it returns the
little-endian 32-bit value of bytes 24..27.  It is total. -/
theorem qwen3_c5_parse (buffer : ByteBuf) :
    ((buffer.length < 28 ∨ asciiSlice buffer 0 4 ≠ riffId) →
      parseWavSampleRate buffer = 24000)
    ∧ (28 ≤ buffer.length → asciiSlice buffer 0 4 = riffId →
        parseWavSampleRate buffer
          = buffer.getD 24 0 + 256 * buffer.getD 25 0 + 65536 * buffer.getD 26 0
            + 16777216 * buffer.getD 27 0) := by
  constructor
  · rintro (h | h)
    · rw [parseWavSampleRate, if_pos h]
    · rw [parseWavSampleRate]
      by_cases hl : buffer.length < 28
      · rw [if_pos hl]
      · rw [if_neg hl, if_pos h]
  · intro hl hr
    rw [parseWavSampleRate, if_neg (by omega), if_neg (by simp [hr])]
    unfold leU32 byteValLE4
    rw [getD_drop, getD_drop, getD_drop, getD_drop]

/-- C5 witness: the short-buffer branch and the `RIFF` branch of the
amended theorem at concrete buffers. -/
theorem qwen3_c5_witness :
    parseWavSampleRate ([1, 2, 3] : ByteBuf) = 24000
    ∧ parseWavSampleRate bufRiff50
        = bufRiff50.getD 24 0 + 256 * bufRiff50.getD 25 0 + 65536 * bufRiff50.getD 26 0
          + 16777216 * bufRiff50.getD 27 0 :=
  ⟨(qwen3_c5_parse [1, 2, 3]).1 (Or.inl (by decide)),
    (qwen3_c5_parse bufRiff50).2 (by decide) (by decide)⟩

/-- C6: whenever the chunk scan completes without finding a `data`
chunk (and without throwing), `wavToPcm` returns the buffer from byte
offset 44 with `parseWavSampleRate` of the same buffer; on the 50-byte
`RIFF` zero buffer the payload has length exactly 6. -/
theorem qwen3_c6_fallback :
    (∀ buf : ByteBuf, wavToPcmNoData buf = true →
      wavToPcm buf = some (buf.drop 44, parseWavSampleRate buf))
    ∧ wavToPcm bufRiff50 = some (List.replicate 6 0, 0)
    ∧ (bufRiff50.drop 44).length = 6 :=
  ⟨fun buf h => wavScanCompletes_scan buf buf.length 12 24000 h, by decide, by decide⟩

/-- C6 witness: the general fallback statement applied to the 50-byte
test buffer. -/
theorem qwen3_c6_witness :
    wavToPcm bufRiff50 = some (bufRiff50.drop 44, parseWavSampleRate bufRiff50) :=
  qwen3_c6_fallback.1 bufRiff50 (by decide)

/-- C7 counterexample: even with a per-call speed override, the posted
request body carries no `speed` member at all (and the configuration
has no default speed to include either); the body has exactly the four
members `input`, `voice`, `model`, `response_format`. -/
theorem qwen3_c7_counterexample :
    optionsSpeedOnly.speed = some 2
    ∧ (buildRequestBody cfgDefault sampleText (some optionsSpeedOnly)).lookup JsonKey.speed
        = none
    ∧ (buildRequestBody cfgDefault sampleText (some optionsSpeedOnly)).length = 4 :=
  ⟨rfl, rfl, rfl⟩

/-- C7 (amended): the JSON body contains the spoken text as `input`,
the effective voice (per-call override when given and non-empty, else
the configured default — JS `||` semantics) as `voice`, the configured
model as `model`, and the fixed string `wav` as `response_format`; it
contains no `speed` member. -/
theorem qwen3_c7_body (cfg : Qwen3Config) (text : String) (options : Option TTSOptions) :
    (buildRequestBody cfg text options).lookup JsonKey.input = some text
    ∧ (buildRequestBody cfg text options).lookup JsonKey.voice
        = some (effectiveVoice cfg options)
    ∧ (buildRequestBody cfg text options).lookup JsonKey.model = some cfg.model
    ∧ (buildRequestBody cfg text options).lookup JsonKey.responseFormat = some wavFormat
    ∧ (buildRequestBody cfg text options).lookup JsonKey.speed = none :=
  ⟨rfl, rfl, rfl, rfl, rfl⟩

/-- C8: a non-2xx status makes `synthesize` reject with a message that
contains the numeric status code and the response body text, returning
no audio buffer; whenever a result is returned (2xx path and valid
WAV), its format tag is `pcm_s16le`. -/
theorem qwen3_c8_status_handling (status : Nat) (bodyText : String) (bodyBytes : ByteBuf) :
    (¬ (200 ≤ status ∧ status < 300) →
      ∃ msg, synthesizeResponse status bodyText bodyBytes = Except.error msg
        ∧ (∃ a b, msg = a ++ toString status ++ b)
        ∧ (∃ a b, msg = a ++ bodyText ++ b))
    ∧ (∀ r, synthesizeResponse status bodyText bodyBytes = Except.ok r →
        r.format = pcmS16le) := by
  constructor
  · intro hstat
    have hok : ¬ (httpOk status = true) := by
      simp only [httpOk, decide_eq_true_eq]
      exact hstat
    refine ⟨errHead ++ toString status ++ errSep ++ bodyText, ?_, ?_, ?_⟩
    · rw [synthesizeResponse, if_pos hok]
    · exact ⟨errHead, errSep ++ bodyText, by rw [String.append_assoc]⟩
    · exact ⟨errHead ++ toString status ++ errSep, "", by rw [String.append_empty]⟩
  · intro r hr
    rw [synthesizeResponse] at hr
    by_cases hok : httpOk status = true
    · rw [if_neg (not_not_intro hok)] at hr
      cases hw : wavToPcm bodyBytes with
      | none =>
        rw [hw] at hr
        exact absurd hr (by simp)
      | some pr =>
        obtain ⟨pcm, sr⟩ := pr
        rw [hw] at hr
        injection hr with h2
        rw [← h2]
    · rw [if_pos hok] at hr
      exact absurd hr (by simp)

/-- C8 witness: status 404 yields the error with both parts in the
message; on status 200 with the 50-byte test body the returned result
carries the `pcm_s16le` tag. -/
theorem qwen3_c8_witness :
    (∃ msg, synthesizeResponse 404 sampleErrBody [] = Except.error msg
      ∧ (∃ a b, msg = a ++ toString 404 ++ b)
      ∧ (∃ a b, msg = a ++ sampleErrBody ++ b))
    ∧ TTSSynthesisResult.format ⟨List.replicate 6 0, pcmS16le, 0⟩ = pcmS16le :=
  ⟨(qwen3_c8_status_handling 404 sampleErrBody []).1 (by decide),
    (qwen3_c8_status_handling 200 sampleErrBody bufRiff50).2
      ⟨List.replicate 6 0, pcmS16le, 0⟩ rfl⟩

/-- C9: on a successful fetch the new catalogue is the static defaults
whose identifiers collide with no fetched entry, in their original
order, followed by all fetched entries in fetch order; in particular
`[Sarah, Michael]` merged with `[Michael', Vivian]` is exactly
`[Sarah, Michael', Vivian]`. -/
theorem qwen3_c9_merge :
    (∀ staticVoices dynamicVoices : List Voice,
      mergeVoices staticVoices dynamicVoices
        = staticVoices.filter (fun v => decide (v.id ∉ dynamicVoices.map Voice.id))
          ++ dynamicVoices)
    ∧ mergeVoices [voiceSarah, voiceMichael] [voiceMichaelFetched, voiceVivian]
        = [voiceSarah, voiceMichaelFetched, voiceVivian] := by
  constructor
  · intro s d
    simp only [mergeVoices]
    congr 1
    apply List.filter_congr
    intro v hv
    unfold List.contains
    rw [List.elem_eq_mem, decide_not]
  · decide

/-- C10: a buffer of length at most 44 whose scan completes without a
`data` chunk yields the empty payload (length exactly 0): the slice
from offset 44 clamps to the buffer end, never producing a
negative-length payload and never raising. -/
theorem qwen3_c10_short_fallback (buf : ByteBuf) (hlen : buf.length ≤ 44)
    (hnodata : wavToPcmNoData buf = true) :
    wavToPcm buf = some ([], parseWavSampleRate buf) := by
  have h := wavScanCompletes_scan buf buf.length 12 24000 hnodata
  rw [List.drop_eq_nil_of_le hlen] at h
  exact h

/-- C10 witness: a 20-byte all-zero buffer falls back to the empty
payload. -/
theorem qwen3_c10_witness :
    wavToPcm (List.replicate 20 0) = some ([], parseWavSampleRate (List.replicate 20 0)) :=
  qwen3_c10_short_fallback (List.replicate 20 0) (by decide) (by decide)

end Qwen3TTS
